import Mathlib

/-!
Verification of the tab-switch extension's recent-tab tracker
(`src/background.ts`, both revisions).

The persisted state is a table mapping window identifiers to ordered lists
of tab identifiers (`recentTabsByWindow`).  Browser collaborators (tab
existence, tab queries) are modelled as explicit oracles passed in as
arguments; `chrome.tabs.update` success is an oracle `tabExists : Nat → Bool`
and its side effect is reported in the result value.
-/

namespace TabSwitch

/-- The storage value: windowId -> array of tab IDs.  `none` models a window
identifier that has no key in the stored object. -/
abbrev TabsByWindow := Nat → Option (List Nat)

/-- `getRecentTabsForWindow` (background.ts): `tabsByWindow[windowId] || []`. -/
def getRecentTabsForWindow (windowId : Nat) (tbl : TabsByWindow) : List Nat :=
  (tbl windowId).getD []

/-- `setRecentTabsForWindow` (background.ts): `tabsByWindow[windowId] = tabs`
followed by writing the whole table back. -/
def setRecentTabsForWindow (windowId : Nat) (tabs : List Nat) (tbl : TabsByWindow) :
    TabsByWindow :=
  fun w => if w = windowId then some tabs else tbl w

/-- The pure list update performed by the `chrome.tabs.onActivated` listener:
filter out `tabId`, unshift it to the front, slice to the 4 most recent. -/
def updateRecentTabs (tabId : Nat) (recentTabs : List Nat) : List Nat :=
  if (tabId :: recentTabs.filter (fun id => id != tabId)).length > 4 then
    (tabId :: recentTabs.filter (fun id => id != tabId)).take 4
  else
    tabId :: recentTabs.filter (fun id => id != tabId)

/-- The history-table effect of the `chrome.tabs.onActivated` listener
(second revision lines 193-206; identical in the first revision lines 48-61). -/
def recordActivation (windowId tabId : Nat) (tbl : TabsByWindow) : TabsByWindow :=
  setRecentTabsForWindow windowId
    (updateRecentTabs tabId (getRecentTabsForWindow windowId tbl)) tbl

/-- The `activeTabIndex` hint update in the `onActivated` listener: the tab's
index on success of `chrome.tabs.get`, `null` on failure.  The lookup oracle
returns `none` exactly when `chrome.tabs.get` would throw. -/
def recordActivationHint (tabIndexOf : Nat → Option Nat) (tabId : Nat) : Option Nat :=
  tabIndexOf tabId

/-- A tab as returned by `chrome.tabs.query`: its (optional) id and its
position index within the window. -/
structure TabInfo where
  id : Option Nat
  index : Nat
deriving DecidableEq

/-- Result of the `chrome.tabs.onRemoved` listener: the table after the call
and the tab (if any) on which `chrome.tabs.update {active: true}` was called. -/
structure RemovalResult where
  table : TabsByWindow
  activated : Option Nat

/-- The `chrome.tabs.onRemoved` listener (second revision lines 210-241).
`activeTabIndex` is the in-memory hint; `queryTabs` is what
`chrome.tabs.query \x7b windowId \x7d` returns at the moment of the call. -/
def recordRemoval (windowId tabId : Nat) (isWindowClosing : Bool)
    (activeTabIndex : Option Nat) (queryTabs : List TabInfo)
    (tbl : TabsByWindow) : RemovalResult :=
  if isWindowClosing then ⟨tbl, none⟩
  else
    let wasActiveTab := (getRecentTabsForWindow windowId tbl).head? == some tabId
    let tbl2 := setRecentTabsForWindow windowId
      ((getRecentTabsForWindow windowId tbl).filter (fun id => id != tabId)) tbl
    match activeTabIndex with
    | none => ⟨tbl2, none⟩
    | some hint =>
      if wasActiveTab then
        if 0 < queryTabs.length then
          match queryTabs.find? (fun t => t.index == min hint (queryTabs.length - 1)) with
          | none => ⟨tbl2, none⟩
          | some targetTab =>
            match targetTab.id with
            | none => ⟨tbl2, none⟩
            | some targetId => ⟨tbl2, some targetId⟩
        else ⟨tbl2, none⟩
      else ⟨tbl2, none⟩

/-- Outcomes of `switchToPreviousTab`, named after the spec's
`resolveSwitchTarget` taxonomy; each corresponds to one return path of the
code. -/
inductive SwitchOutcome where
  | NoCurrentWindow
  | NotEnoughHistory
  | Switched (tabId : Nat)
  | AllStale
deriving DecidableEq

/-- Result of `switchToPreviousTab` (second revision): the outcome, the tab
ids on which activation was attempted (in order), and the table after the
call. -/
structure SwitchResult where
  outcome : SwitchOutcome
  attempts : List Nat
  table : TabsByWindow

/-- The scan loop of the second-revision `switchToPreviousTab`
(lines 276-298): try each candidate in turn, accumulate failures in
`invalid`, and on success or exhaustion filter them out of `recentTabs` and
persist when any failure was seen. -/
def scanLoop (tabExists : Nat → Bool) (windowId : Nat) (recentTabs : List Nat)
    (tbl : TabsByWindow) : List Nat → List Nat → SwitchResult
  | [], invalid =>
    if invalid.isEmpty then ⟨.AllStale, [], tbl⟩
    else ⟨.AllStale, [],
      setRecentTabsForWindow windowId
        (recentTabs.filter (fun id => !invalid.contains id)) tbl⟩
  | tabId :: rest, invalid =>
    if tabExists tabId then
      if invalid.isEmpty then ⟨.Switched tabId, [tabId], tbl⟩
      else ⟨.Switched tabId, [tabId],
        setRecentTabsForWindow windowId
          (recentTabs.filter (fun id => !invalid.contains id)) tbl⟩
    else
      let res := scanLoop tabExists windowId recentTabs tbl rest (invalid ++ [tabId])
      ⟨res.outcome, tabId :: res.attempts, res.table⟩

/-- `switchToPreviousTab`, second revision (lines 257-299): scan history
positions 1..end with stale-entry cleanup. -/
def switchToPreviousTab (tabExists : Nat → Bool) (windowId : Nat)
    (tbl : TabsByWindow) : SwitchResult :=
  let recentTabs := getRecentTabsForWindow windowId tbl
  if recentTabs.length < 2 then ⟨.NotEnoughHistory, [], tbl⟩
  else scanLoop tabExists windowId recentTabs tbl recentTabs.tail []

/-- Result of the first-revision `switchToPreviousTab`: the tab activated (if
any), the attempted activations, and the table after the call. -/
structure SwitchResultV1 where
  activated : Option Nat
  attempts : List Nat
  table : TabsByWindow

/-- `switchToPreviousTab`, first revision (lines 104-132): a single attempt at
history position 1; on failure, remove that entry and stop. -/
def switchToPreviousTabV1 (tabExists : Nat → Bool) (windowId : Nat)
    (tbl : TabsByWindow) : SwitchResultV1 :=
  match getRecentTabsForWindow windowId tbl with
  | _ :: previousTabId :: _ =>
    if tabExists previousTabId then ⟨some previousTabId, [previousTabId], tbl⟩
    else ⟨none, [previousTabId],
      setRecentTabsForWindow windowId
        ((getRecentTabsForWindow windowId tbl).filter (fun id => id != previousTabId)) tbl⟩
  | _ => ⟨none, [], tbl⟩

/-- The per-window history invariant stated by the spec: no duplicate tab
identifier and at most 4 entries. -/
abbrev histInv (l : List Nat) : Prop := l.Nodup ∧ l.length ≤ 4

/- Concrete instances used by the witnesses. -/

/-- A table with no keys at all. -/
def emptyTable : TabsByWindow := fun _ => none

/-- A table where window 1 has history `[5, 3, 9]`. -/
def table539 : TabsByWindow := fun w => if w = 1 then some [5, 3, 9] else none

/-- A table where window 1 has history `[5, 3]`. -/
def table53 : TabsByWindow := fun w => if w = 1 then some [5, 3] else none

/-- A table where window 1 has history `[5]`. -/
def table5 : TabsByWindow := fun w => if w = 1 then some [5] else none

/-- An existence oracle under which every tab except tab 3 exists. -/
def existsNot3 : Nat → Bool := fun t => t != 3

/-- An existence oracle under which only tab 5 exists. -/
def existsOnly5 : Nat → Bool := fun t => t == 5

/-- An existence oracle under which every tab exists. -/
def existsAll : Nat → Bool := fun _ => true

/- Helper lemmas about the storage table. -/

theorem get_set_same (w : Nat) (ts : List Nat) (tbl : TabsByWindow) :
    getRecentTabsForWindow w (setRecentTabsForWindow w ts tbl) = ts := by
  simp [getRecentTabsForWindow, setRecentTabsForWindow]

theorem set_set_same (w : Nat) (a b : List Nat) (tbl : TabsByWindow) :
    setRecentTabsForWindow w a (setRecentTabsForWindow w b tbl) =
      setRecentTabsForWindow w a tbl := by
  funext w'
  by_cases h : w' = w <;> simp [setRecentTabsForWindow, h]

theorem get_recordActivation_same (w t : Nat) (tbl : TabsByWindow) :
    getRecentTabsForWindow w (recordActivation w t tbl) =
      updateRecentTabs t (getRecentTabsForWindow w tbl) := by
  simp [recordActivation, get_set_same]

/- Helper lemmas about the activation list update. -/

theorem updateRecentTabs_length (t : Nat) (l : List Nat) :
    (updateRecentTabs t l).length ≤ 4 := by
  unfold updateRecentTabs
  by_cases h : (t :: l.filter (fun id => id != t)).length > 4
  · rw [if_pos h]
    simp [List.length_take]
  · rw [if_neg h]
    omega

theorem updateRecentTabs_shape (t : Nat) (l : List Nat) :
    ∃ xs, updateRecentTabs t l = t :: xs ∧ ∀ x ∈ xs, (x != t) = true := by
  unfold updateRecentTabs
  by_cases h : (t :: l.filter (fun id => id != t)).length > 4
  · rw [if_pos h]
    refine ⟨(l.filter (fun id => id != t)).take 3, rfl, ?_⟩
    intro x hx
    have hx' : x ∈ l.filter (fun id => id != t) := List.mem_of_mem_take hx
    simpa using List.of_mem_filter hx'
  · rw [if_neg h]
    refine ⟨l.filter (fun id => id != t), rfl, ?_⟩
    intro x hx
    simpa using List.of_mem_filter hx

theorem updateRecentTabs_nodup (t : Nat) (l : List Nat) (h : l.Nodup) :
    (updateRecentTabs t l).Nodup := by
  have hcons : (t :: l.filter (fun id => id != t)).Nodup := by
    refine List.nodup_cons.mpr ⟨?_, h.filter _⟩
    intro hmem
    have := List.of_mem_filter hmem
    simp at this
  unfold updateRecentTabs
  by_cases hl : (t :: l.filter (fun id => id != t)).length > 4
  · rw [if_pos hl]
    exact hcons.sublist (List.take_sublist 4 _)
  · rw [if_neg hl]
    exact hcons

theorem updateRecentTabs_histInv (t : Nat) (l : List Nat) (h : histInv l) :
    histInv (updateRecentTabs t l) :=
  ⟨updateRecentTabs_nodup t l h.1, updateRecentTabs_length t l⟩

theorem updateRecentTabs_idem (t : Nat) (l : List Nat) :
    updateRecentTabs t (updateRecentTabs t l) = updateRecentTabs t l := by
  obtain ⟨xs, hm, hx⟩ := updateRecentTabs_shape t l
  have hlen : (updateRecentTabs t l).length ≤ 4 := updateRecentTabs_length t l
  rw [hm] at hlen
  have hfilter : (t :: xs).filter (fun id => id != t) = xs := by
    rw [List.filter_cons]
    simp only [bne_self_eq_false, Bool.false_eq_true, if_neg, ite_false]
    exact List.filter_eq_self.mpr hx
  conv_lhs => rw [updateRecentTabs, hm, hfilter]
  rw [if_neg (by omega), hm]

theorem recordActivation_histInv (w t : Nat) (tbl : TabsByWindow)
    (h : histInv (getRecentTabsForWindow w tbl)) :
    histInv (getRecentTabsForWindow w (recordActivation w t tbl)) := by
  rw [get_recordActivation_same]
  exact updateRecentTabs_histInv t _ h

/-- C1: for every window and every finite sequence of activation events for
that window, starting from any table whose history for that window satisfies
the invariant, the resulting history has at most 4 entries and no duplicate
tab identifier. -/
theorem activation_sequence_invariant (w : Nat) (events : List Nat)
    (tbl : TabsByWindow) (h : histInv (getRecentTabsForWindow w tbl)) :
    histInv (getRecentTabsForWindow w
      (events.foldl (fun acc tabId => recordActivation w tabId acc) tbl)) := by
  induction events generalizing tbl with
  | nil => exact h
  | cons e es ih =>
    rw [List.foldl_cons]
    exact ih (recordActivation w e tbl) (recordActivation_histInv w e tbl h)

/-- C1 witness: a concrete run of five activations (with a repeat) from the
empty table keeps the invariant. -/
theorem activation_sequence_invariant_witness :
    histInv (getRecentTabsForWindow 1 emptyTable) ∧
    histInv (getRecentTabsForWindow 1
      ([10, 11, 12, 13, 14, 11].foldl
        (fun acc tabId => recordActivation 1 tabId acc) emptyTable)) :=
  ⟨by decide,
   activation_sequence_invariant 1 [10, 11, 12, 13, 14, 11] emptyTable (by decide)⟩

/-- C7: immediately after `recordActivation(w, t)` on a table whose history
for `w` satisfies the invariant, the first element of `w`'s history is `t`. -/
theorem recordActivation_head (w t : Nat) (tbl : TabsByWindow)
    (_h : histInv (getRecentTabsForWindow w tbl)) :
    (getRecentTabsForWindow w (recordActivation w t tbl)).head? = some t := by
  rw [get_recordActivation_same]
  obtain ⟨xs, hm, -⟩ := updateRecentTabs_shape t (getRecentTabsForWindow w tbl)
  rw [hm]
  rfl

/-- C7 witness: activating tab 9 in window 1 on history `[5, 3]` puts 9 at the
front. -/
theorem recordActivation_head_witness :
    histInv (getRecentTabsForWindow 1 table53) ∧
    (getRecentTabsForWindow 1 (recordActivation 1 9 table53)).head? = some 9 :=
  ⟨by decide, recordActivation_head 1 9 table53 (by decide)⟩

/-- C8: the `recordActivation(w, t)` history update is idempotent on the
table: applying it twice with no intervening events equals applying it
once. -/
theorem recordActivation_idem (w t : Nat) (tbl : TabsByWindow) :
    recordActivation w t (recordActivation w t tbl) = recordActivation w t tbl := by
  show setRecentTabsForWindow w
      (updateRecentTabs t (getRecentTabsForWindow w
        (setRecentTabsForWindow w
          (updateRecentTabs t (getRecentTabsForWindow w tbl)) tbl)))
      (recordActivation w t tbl) = recordActivation w t tbl
  rw [get_set_same, updateRecentTabs_idem]
  exact set_set_same w _ _ tbl

/-- C5: on a window whose history has fewer than 2 entries,
`switchToPreviousTab` reports `NotEnoughHistory`, attempts no activation, and
leaves the table unchanged. -/
theorem switch_not_enough_history (tabExists : Nat → Bool) (w : Nat)
    (tbl : TabsByWindow) (hlen : (getRecentTabsForWindow w tbl).length < 2) :
    switchToPreviousTab tabExists w tbl = ⟨.NotEnoughHistory, [], tbl⟩ := by
  unfold switchToPreviousTab
  rw [if_pos hlen]

/-- C5 witness: window 1 with history `[5]` yields `NotEnoughHistory`, no
attempts, and the same table. -/
theorem switch_not_enough_history_witness :
    (getRecentTabsForWindow 1 table5).length < 2 ∧
    switchToPreviousTab existsAll 1 table5 = ⟨.NotEnoughHistory, [], table5⟩ :=
  ⟨by decide, switch_not_enough_history existsAll 1 table5 (by decide)⟩

/-- C2: on history `[5, 3, 9]` where tab 3 is gone and tab 9 exists,
`switchToPreviousTab` attempts 3 then 9 (it does not abort on the first
failure), reports `Switched 9`, and the persisted history becomes
`[5, 9]`. -/
theorem switch_cleans_stale_then_switches (tabExists : Nat → Bool) (w : Nat)
    (tbl : TabsByWindow) (hget : getRecentTabsForWindow w tbl = [5, 3, 9])
    (h3 : tabExists 3 = false) (h9 : tabExists 9 = true) :
    (switchToPreviousTab tabExists w tbl).outcome = .Switched 9 ∧
    (switchToPreviousTab tabExists w tbl).attempts = [3, 9] ∧
    getRecentTabsForWindow w (switchToPreviousTab tabExists w tbl).table = [5, 9] := by
  unfold switchToPreviousTab
  rw [hget]
  norm_num [scanLoop, h3, h9, get_set_same]

/-- C2 witness: the concrete scenario with window 1, table `[5, 3, 9]`, and
tab 3 missing. -/
theorem switch_cleans_stale_then_switches_witness :
    getRecentTabsForWindow 1 table539 = [5, 3, 9] ∧
    (switchToPreviousTab existsNot3 1 table539).outcome = .Switched 9 ∧
    (switchToPreviousTab existsNot3 1 table539).attempts = [3, 9] ∧
    getRecentTabsForWindow 1 (switchToPreviousTab existsNot3 1 table539).table = [5, 9] :=
  ⟨by decide,
   switch_cleans_stale_then_switches existsNot3 1 table539 (by decide)
     (by decide) (by decide)⟩

theorem scanLoop_all_fail (tabExists : Nat → Bool) (w : Nat) (r : List Nat)
    (tbl : TabsByWindow) (cands : List Nat) :
    ∀ invalid, (∀ t ∈ cands, tabExists t = false) → invalid ++ cands ≠ [] →
    scanLoop tabExists w r tbl cands invalid =
      ⟨.AllStale, cands,
       setRecentTabsForWindow w
         (r.filter (fun id => !((invalid ++ cands).contains id))) tbl⟩ := by
  induction cands with
  | nil =>
    intro invalid _ hne
    rw [List.append_nil] at hne
    have hie : invalid.isEmpty = false := by
      simpa [List.isEmpty_iff] using hne
    simp [scanLoop, hie]
  | cons c cs ih =>
    intro invalid hfail hne
    have hc : tabExists c = false := hfail c (List.mem_cons_self c cs)
    have hcs : ∀ t ∈ cs, tabExists t = false :=
      fun t ht => hfail t (List.mem_cons_of_mem c ht)
    have hne' : (invalid ++ [c]) ++ cs ≠ [] := by simp
    have hres := ih (invalid ++ [c]) hcs hne'
    have hap : (invalid ++ [c]) ++ cs = invalid ++ c :: cs := by simp
    rw [hap] at hres
    simp [scanLoop, hc, hres]

/-- C3: when every candidate at history positions 1..end is stale,
`switchToPreviousTab` reports `AllStale` and removes all of those candidates
from the persisted history. -/
theorem switch_all_stale (tabExists : Nat → Bool) (w : Nat) (tbl : TabsByWindow)
    (hlen : 2 ≤ (getRecentTabsForWindow w tbl).length)
    (hfail : ∀ t ∈ (getRecentTabsForWindow w tbl).tail, tabExists t = false) :
    (switchToPreviousTab tabExists w tbl).outcome = .AllStale ∧
    getRecentTabsForWindow w (switchToPreviousTab tabExists w tbl).table =
      (getRecentTabsForWindow w tbl).filter
        (fun id => !((getRecentTabsForWindow w tbl).tail.contains id)) := by
  have hne : ([] : List Nat) ++ (getRecentTabsForWindow w tbl).tail ≠ [] := by
    rw [List.nil_append]
    intro hnil
    have := congrArg List.length hnil
    simp [List.length_tail] at this
    omega
  unfold switchToPreviousTab
  rw [if_neg (by omega)]
  rw [scanLoop_all_fail tabExists w _ tbl _ [] hfail hne]
  simp [get_set_same]

/-- C3 witness: window 1 with history `[5, 3]` and tab 3 gone: outcome
`AllStale` and post-call history `[5]`. -/
theorem switch_all_stale_witness :
    2 ≤ (getRecentTabsForWindow 1 table53).length ∧
    (switchToPreviousTab existsOnly5 1 table53).outcome = .AllStale ∧
    getRecentTabsForWindow 1 (switchToPreviousTab existsOnly5 1 table53).table = [5] := by
  have h := switch_all_stale existsOnly5 1 table53 (by decide) (by decide)
  refine ⟨by decide, h.1, ?_⟩
  rw [h.2]
  decide

/-- C10: when the history is `a :: b :: rest` and activating `b` (position 1)
succeeds, the first-revision and second-revision `switchToPreviousTab` agree:
both attempt and activate exactly `b` and both leave the table unchanged. -/
theorem switch_versions_agree (tabExists : Nat → Bool) (w a b : Nat)
    (rest : List Nat) (tbl : TabsByWindow)
    (hget : getRecentTabsForWindow w tbl = a :: b :: rest)
    (hb : tabExists b = true) :
    switchToPreviousTabV1 tabExists w tbl = ⟨some b, [b], tbl⟩ ∧
    switchToPreviousTab tabExists w tbl = ⟨.Switched b, [b], tbl⟩ := by
  constructor
  · unfold switchToPreviousTabV1
    rw [hget]
    simp [hb]
  · unfold switchToPreviousTab
    rw [hget]
    rw [if_neg (by simp)]
    simp [scanLoop, hb]

/-- C10 witness: history `[5, 3]` with every tab existing: both revisions
switch to tab 3 and keep the table. -/
theorem switch_versions_agree_witness :
    getRecentTabsForWindow 1 table53 = 5 :: 3 :: [] ∧
    existsAll 3 = true ∧
    switchToPreviousTabV1 existsAll 1 table53 = ⟨some 3, [3], table53⟩ ∧
    switchToPreviousTab existsAll 1 table53 = ⟨.Switched 3, [3], table53⟩ := by
  have h := switch_versions_agree existsAll 1 5 3 [] table53 (by decide) (by decide)
  exact ⟨by decide, by decide, h.1, h.2⟩

/-- C6: a removal with `isWindowClosing = true` never writes the history
table and never attempts a replacement activation, whatever the hint, the
query result, or the prior table. -/
theorem removal_window_closing_noop (w t : Nat) (hint : Option Nat)
    (qts : List TabInfo) (tbl : TabsByWindow) :
    recordRemoval w t true hint qts tbl = ⟨tbl, none⟩ := by
  unfold recordRemoval
  rw [if_pos rfl]

/-- C4: on a removal (window not closing) of the tab sitting at history
position 0, with the active-index hint present, the handler removes the tab
from the history and activates the queried tab whose position index equals
`min hint (remaining tabs - 1)`. -/
theorem removal_positional_replacement (w t h tid : Nat) (tt : TabInfo)
    (qts : List TabInfo) (tbl : TabsByWindow)
    (hhead : (getRecentTabsForWindow w tbl).head? = some t)
    (hlen : 0 < qts.length)
    (hfind : qts.find? (fun ti => ti.index == min h (qts.length - 1)) = some tt)
    (hid : tt.id = some tid) :
    recordRemoval w t false (some h) qts tbl =
      ⟨setRecentTabsForWindow w
         ((getRecentTabsForWindow w tbl).filter (fun id => id != t)) tbl,
       some tid⟩ := by
  unfold recordRemoval
  rw [if_neg (by simp)]
  simp only [hhead, beq_self_eq_true, if_pos, hlen, hfind, hid]

/-- C4 witness: window 1, history `[5, 3]`, removing tab 5 with hint 0 while
the window's remaining tabs are tab 7 at index 0 and tab 3 at index 1: the
handler activates tab 7 (the positional choice), not 3 (the second-most-recent
history entry). -/
theorem removal_positional_replacement_witness :
    (getRecentTabsForWindow 1 table53).head? = some 5 ∧
    (recordRemoval 1 5 false (some 0) [⟨some 7, 0⟩, ⟨some 3, 1⟩] table53).activated =
      some 7 ∧
    recordRemoval 1 5 false (some 0) [⟨some 7, 0⟩, ⟨some 3, 1⟩] table53 =
      ⟨setRecentTabsForWindow 1
         ((getRecentTabsForWindow 1 table53).filter (fun id => id != 5)) table53,
       some 7⟩ := by
  have h := removal_positional_replacement 1 5 0 7 ⟨some 7, 0⟩
    [⟨some 7, 0⟩, ⟨some 3, 1⟩] table53 (by decide) (by decide) (by decide) (by decide)
  exact ⟨by decide, by rw [h], h⟩

/-- C9: a removal (window not closing) for a window identifier with no key in
the table writes an empty-list entry for that window and triggers no
replacement activation. -/
theorem removal_unknown_window (w t : Nat) (hint : Option Nat)
    (qts : List TabInfo) (tbl : TabsByWindow) (habs : tbl w = none) :
    (recordRemoval w t false hint qts tbl).table w = some [] ∧
    (recordRemoval w t false hint qts tbl).activated = none := by
  have hget : getRecentTabsForWindow w tbl = [] := by
    simp [getRecentTabsForWindow, habs]
  unfold recordRemoval
  rw [if_neg (by simp)]
  cases hint <;> simp [hget, setRecentTabsForWindow]

/-- C9 witness: removing tab 2 in the never-seen window 1 of the empty table
creates the key `1 ↦ []` and activates nothing, even with a hint present. -/
theorem removal_unknown_window_witness :
    emptyTable 1 = none ∧
    (recordRemoval 1 2 false (some 0) [⟨some 7, 0⟩] emptyTable).table 1 = some [] ∧
    (recordRemoval 1 2 false (some 0) [⟨some 7, 0⟩] emptyTable).activated = none :=
  ⟨by decide,
   (removal_unknown_window 1 2 (some 0) [⟨some 7, 0⟩] emptyTable (by decide)).1,
   (removal_unknown_window 1 2 (some 0) [⟨some 7, 0⟩] emptyTable (by decide)).2⟩

end TabSwitch
